import Mathlib

/-!
# A Go HTTP server with a hand-built router and the pprof endpoints

Verification development for `main.go`: the program builds an `http.ServeMux`,
registers `hiHandler` under "/" and the five `net/http/pprof` handlers under
"/debug/pprof/...", and hands the mux to `http.ListenAndServe`.

`main` and `hiHandler` are embedded from `main.go`.  The router itself is the Go
standard library's `net/http.ServeMux`; its definitions below follow the library
functions of the same name (`Handle`, `appendSorted`, `match`, `handler`,
`shouldRedirectRLocked`, `redirectToPathSlash`, `Handler`, `ServeHTTP`,
`cleanPath`, `path.Clean`, `sort.Search`, `NotFound`, `Error`) in the layout the
library had up to Go 1.21: a map of patterns plus a slice of the subtree patterns
sorted from longest to shortest.  (Go 1.22 replaced the layout by a routing tree
that selects on the escaped path; for patterns like the six of this program,
without method, host or wildcard, and requests whose `URL.RawPath` is empty it
selects the same handlers, redirects and not-found replies.)  What the library
computes from the runtime or by text formatting, or fixes differently from release
to release (the pprof handlers, `stripHostPort`, the status code, header and body
text of a redirect) is taken as a parameter, `Lib`.

The reply to a request is observed at the `http.ResponseWriter` interface: the
status code, the header fields the handler set and the bytes it wrote.
-/

namespace PprofServer

/-! ## Strings -/

/-- Go strings, as lists of characters.  Every comparison the router makes is
against the ASCII bytes '/', '.', '*', which never occur inside a multi-byte
UTF-8 sequence, so processing characters agrees with processing bytes. -/
abbrev Str := List Char

/-- Go `strings.HasPrefix(s, p)`. -/
def HasPrefix (s p : Str) : Bool := p.isPrefixOf s

/-! ## `path.Clean` and `net/http.cleanPath` -/

/-- The inner loop of the ".." case of `path.Clean`:
`for out.w > dotdot && out.index(out.w) != '/' { out.w-- }`, returning the final `out.w`. -/
def backtrackLoop (out : Str) (dotdot : Nat) : Nat → Nat
  | 0 => 0
  | w + 1 =>
    if w + 1 > dotdot && out.getD (w + 1) '/' != '/' then backtrackLoop out dotdot w
    else w + 1

/-- The "can backtrack" arm of `path.Clean`: `out.w--` followed by `backtrackLoop`;
the buffer is truncated to the resulting `out.w`. -/
def backtrack (out : Str) (dotdot : Nat) : Str :=
  out.take (backtrackLoop out dotdot (out.length - 1))

/-- The main loop `for r < n` of `path.Clean`.  `rest` is `path[r:]`, `out` is the
content of the output buffer (`out.w = out.length`), and the first argument bounds
the number of iterations (every iteration consumes at least one byte of `rest`, see
`cleanLoop_fuel`). -/
def cleanLoop (rooted : Bool) : Nat → Str → Str → Nat → Str
  | 0, _, out, _ => out
  | fuel + 1, rest, out, dotdot =>
    match rest with
    | [] => out
    | c :: tl =>
      if c == '/' then
        -- empty path element
        cleanLoop rooted fuel tl out dotdot
      else if c == '.' && (tl.isEmpty || tl.head? == some '/') then
        -- . element
        cleanLoop rooted fuel tl out dotdot
      else if c == '.' && tl.head? == some '.' &&
          (tl.tail.isEmpty || tl.tail.head? == some '/') then
        -- .. element: remove to last /
        if out.length > dotdot then
          cleanLoop rooted fuel tl.tail (backtrack out dotdot) dotdot
        else if !rooted then
          let out1 := if out.length > 0 then out ++ ['/'] else out
          let out2 := out1 ++ ['.', '.']
          cleanLoop rooted fuel tl.tail out2 out2.length
        else
          cleanLoop rooted fuel tl.tail out dotdot
      else
        -- real path element: add slash if needed, then copy the element
        let out1 :=
          if (rooted && out.length != 1) || (!rooted && out.length != 0) then out ++ ['/']
          else out
        cleanLoop rooted fuel (rest.dropWhile (· != '/')) (out1 ++ rest.takeWhile (· != '/')) dotdot

/-- Go `path.Clean`. -/
def Clean (path : Str) : Str :=
  if path.isEmpty then ['.']
  else
    let rooted := path.head? == some '/'
    let out :=
      if rooted then cleanLoop true path.length path.tail ['/'] 1
      else cleanLoop false path.length path [] 0
    if out.isEmpty then ['.'] else out

/-- Go `net/http.cleanPath`: the canonical form of a request path. -/
def cleanPath (p : Str) : Str :=
  if p.isEmpty then ['/']
  else
    let p := if p.head? != some '/' then '/' :: p else p
    let np := Clean p
    if p.getLast? == some '/' && np != ['/'] then
      if p.length == np.length + 1 && HasPrefix p np then p else np ++ ['/']
    else np

/-! ## Requests -/

/-- Go `url.URL`, the fields the router reads. -/
structure URL where
  /-- Field `Host`. -/
  host : Str
  /-- Field `Path`, the decoded path. -/
  path : Str
  /-- Field `RawPath`, the encoded path hint: the path as it stood in the request
  line, kept only when that differs from the default encoding of `Path` (as it does
  when a slash or a dot of the path came percent-escaped); empty otherwise. -/
  rawPath : Str
  /-- Field `RawQuery`. -/
  rawQuery : Str
  deriving DecidableEq

/-- Go `http.Request` as received by the server.  `star` records how the server
fills the fields from the request line: the request target "*" gives `URL.Path`
"*", or the empty path for a CONNECT request (whose target is read as an
authority). -/
structure Request where
  /-- Field `Method`. -/
  method : Str
  /-- Field `URL`. -/
  url : URL
  /-- Field `Host`. -/
  host : Str
  /-- Field `RequestURI`, the unmodified request target. -/
  requestURI : Str
  /-- Field `ProtoMajor`. -/
  protoMajor : Nat
  /-- Field `ProtoMinor`. -/
  protoMinor : Nat
  /-- Field `Header`. -/
  header : List (Str × Str)
  /-- The bytes of `Body`. -/
  body : Str
  /-- A target "*" never comes with a rooted path. -/
  star : requestURI = ['*'] → url.path = ['*'] ∨ url.path = []

/-- Go `(*Request).ProtoAtLeast`. -/
def Request.ProtoAtLeast (r : Request) (major minor : Nat) : Bool :=
  r.protoMajor > major || (r.protoMajor == major && r.protoMinor >= minor)

/-! ## Handlers and what they do to a `ResponseWriter` -/

/-- The function values this program registers, and the two handlers the mux
builds itself (`http.RedirectHandler(url, code)` and `http.NotFoundHandler()`). -/
inductive Handler where
  /-- `hiHandler` of `main.go`. -/
  | hiHandler
  /-- `pprof.Index`. -/
  | pprofIndex
  /-- `pprof.Cmdline`. -/
  | pprofCmdline
  /-- `pprof.Profile`. -/
  | pprofProfile
  /-- `pprof.Symbol`. -/
  | pprofSymbol
  /-- `pprof.Trace`. -/
  | pprofTrace
  /-- `http.RedirectHandler(u.String(), code)`. -/
  | RedirectHandler (u : URL) (code : Nat)
  /-- `http.NotFoundHandler()`. -/
  | NotFoundHandler
  deriving DecidableEq

/-- The run of a handler, as the calls it makes in order: on its
`http.ResponseWriter` (`Header().Set`, `WriteHeader`, `Write`) and on a mux
(`HandleFunc`).  `Write` hands its two results `(n, err)` to the rest of the run. -/
inductive Effect where
  /-- The handler returns. -/
  | ret
  /-- `w.Header().Set(key, value)`. -/
  | headerSet (key value : Str) (next : Effect)
  /-- `w.WriteHeader(statusCode)`. -/
  | writeHeader (statusCode : Nat) (next : Effect)
  /-- `n, err := w.Write(data)`. -/
  | write (data : Str) (next : Nat → Option Str → Effect)
  /-- `mux.HandleFunc(pattern, h)` on the serving mux. -/
  | handleFunc (pattern : Str) (h : Handler) (next : Effect)

/-- `main.go`, `hiHandler`: `w.Write([]byte("hi"))`, both results dropped. -/
def hiHandler (_r : Request) : Effect :=
  Effect.write "hi".toList (fun _ _ => Effect.ret)

/-- What the standard library computes outside the router. -/
structure Lib where
  /-- `pprof.Index`. -/
  Index : Request → Effect
  /-- `pprof.Cmdline`. -/
  Cmdline : Request → Effect
  /-- `pprof.Profile`. -/
  Profile : Request → Effect
  /-- `pprof.Symbol`. -/
  Symbol : Request → Effect
  /-- `pprof.Trace`. -/
  Trace : Request → Effect
  /-- `net/http.stripHostPort`. -/
  stripHostPort : Str → Str
  /-- The status code of the redirects the mux issues itself:
  `http.StatusMovedPermanently` (301) in the library up to Go 1.21, 307 in recent
  releases. -/
  redirectCode : Nat
  /-- The header fields `http.Redirect` sets (Location, and Content-Type for GET and HEAD). -/
  redirectHeader : URL → Request → List (Str × Str)
  /-- The short HTML body `http.Redirect` writes for GET, if any. -/
  redirectBody : URL → Nat → Request → Option Str

/-- A run of `Header().Set` calls followed by `next`. -/
def Effect.headerSetAll : List (Str × Str) → Effect → Effect
  | [], next => next
  | (k, v) :: kvs, next => Effect.headerSet k v (Effect.headerSetAll kvs next)

/-- Go `http.Error(w, error, code)`: two header fields, `WriteHeader(code)`, then
`fmt.Fprintln(w, error)`. -/
def Error (error : Str) (code : Nat) : Effect :=
  Effect.headerSet "Content-Type".toList "text/plain; charset=utf-8".toList <|
  Effect.headerSet "X-Content-Type-Options".toList "nosniff".toList <|
  Effect.writeHeader code <|
  Effect.write (error ++ ['\n']) (fun _ _ => Effect.ret)

/-- Go `http.NotFound`. -/
def NotFound (_r : Request) : Effect :=
  Error "404 page not found".toList 404

/-- Go `http.Redirect(w, r, url, code)`: header fields, `WriteHeader(code)`, then the
body if there is one. -/
def Redirect (lib : Lib) (r : Request) (u : URL) (code : Nat) : Effect :=
  Effect.headerSetAll (lib.redirectHeader u r) <|
  Effect.writeHeader code <|
  match lib.redirectBody u code r with
  | some b => Effect.write b (fun _ _ => Effect.ret)
  | none => Effect.ret

/-- The call `h.ServeHTTP(w, r)` for each handler value. -/
def Handler.ServeHTTP (lib : Lib) (h : Handler) (r : Request) : Effect :=
  match h with
  | Handler.hiHandler => PprofServer.hiHandler r
  | Handler.pprofIndex => lib.Index r
  | Handler.pprofCmdline => lib.Cmdline r
  | Handler.pprofProfile => lib.Profile r
  | Handler.pprofSymbol => lib.Symbol r
  | Handler.pprofTrace => lib.Trace r
  | Handler.RedirectHandler u code => Redirect lib r u code
  | Handler.NotFoundHandler => NotFound r

/-! ## `http.ServeMux` -/

/-- Go `muxEntry`. -/
structure muxEntry where
  /-- Field `h`. -/
  h : Handler
  /-- Field `pattern`. -/
  pattern : Str
  deriving DecidableEq

/-- Go `ServeMux`: the map `m` from pattern to entry (an association list), the
slice `es` of the entries whose pattern ends in '/', sorted from longest to
shortest, and the flag `hosts`. -/
structure ServeMux where
  /-- Field `m`. -/
  m : List (Str × muxEntry)
  /-- Field `es`. -/
  es : List muxEntry
  /-- Field `hosts`: whether any pattern contains a host name. -/
  hosts : Bool
  deriving DecidableEq

/-- Go `http.NewServeMux()`. -/
def NewServeMux : ServeMux := { m := [], es := [], hosts := false }

/-- The loop of Go `sort.Search`, a binary search on `[i, j)`; the first
argument bounds the iterations (`j - i` shrinks in each). -/
def searchLoop (f : Nat → Bool) : Nat → Nat → Nat → Nat
  | 0, i, _ => i
  | fuel + 1, i, j =>
    if i < j then
      let h := (i + j) / 2
      if !f h then searchLoop f fuel (h + 1) j else searchLoop f fuel i h
    else i

/-- Go `sort.Search(n, f)`. -/
def Search (n : Nat) (f : Nat → Bool) : Nat := searchLoop f n 0 n

/-- Go `appendSorted`: insert `e` before the first entry with a shorter pattern. -/
def appendSorted (es : List muxEntry) (e : muxEntry) : List muxEntry :=
  let n := es.length
  let i := Search n (fun i => decide (((es.map muxEntry.pattern).getD i []).length < e.pattern.length))
  if i == n then es ++ [e]
  else es.take i ++ e :: es.drop i

/-- Go `(*ServeMux).Handle`; `Except.error` is the panic message.  (The nil-handler
panic cannot arise: every `Handler` is a function value.) -/
def ServeMux.Handle (mux : ServeMux) (pattern : Str) (handler : Handler) : Except Str ServeMux :=
  if pattern.isEmpty then Except.error "http: invalid pattern".toList
  else if (mux.m.lookup pattern).isSome then
    Except.error ("http: multiple registrations for ".toList ++ pattern)
  else
    let e : muxEntry := { h := handler, pattern := pattern }
    Except.ok
      { m := (pattern, e) :: mux.m
        es := if pattern.getLast? == some '/' then appendSorted mux.es e else mux.es
        hosts := if pattern.head? != some '/' then true else mux.hosts }

/-- Go `(*ServeMux).HandleFunc`. -/
def ServeMux.HandleFunc (mux : ServeMux) (pattern : Str) (handler : Handler) : Except Str ServeMux :=
  mux.Handle pattern handler

/-- Go `(*ServeMux).match`: an exact entry of `m` first, otherwise the first entry of
`es` (the longest) whose pattern is a leading part of `path`; `none` is the nil handler. -/
def ServeMux.match_ (mux : ServeMux) (path : Str) : Option (Handler × Str) :=
  match mux.m.lookup path with
  | some v => some (v.h, v.pattern)
  | none =>
    match mux.es.find? (fun e => HasPrefix path e.pattern) with
    | some e => some (e.h, e.pattern)
    | none => none

/-- Go `(*ServeMux).handler`: the table lookup proper, for an already canonical path. -/
def ServeMux.handler (mux : ServeMux) (host path : Str) : Handler × Str :=
  let r1 := if mux.hosts then mux.match_ (host ++ path) else none
  let r2 := if r1.isNone then mux.match_ path else r1
  match r2 with
  | some hp => hp
  | none => (Handler.NotFoundHandler, [])

/-- Go `(*ServeMux).shouldRedirectRLocked`. -/
def ServeMux.shouldRedirectRLocked (mux : ServeMux) (host path : Str) : Bool :=
  let p := [path, host ++ path]
  if p.any (fun c => (mux.m.lookup c).isSome) then false
  else if path.length == 0 then false
  else if p.any (fun c => (mux.m.lookup (c ++ ['/'])).isSome) then path.getLast? != some '/'
  else false

/-- Go `(*ServeMux).redirectToPathSlash`; `none` is the result `(u, false)`. -/
def ServeMux.redirectToPathSlash (mux : ServeMux) (host path : Str) (u : URL) : Option URL :=
  if mux.shouldRedirectRLocked host path then
    some { host := [], path := path ++ ['/'], rawPath := [], rawQuery := u.rawQuery }
  else none

/-- Go `(*ServeMux).Handler`: the handler for a request and the pattern it matched.
It selects on `URL.Path`.  (The routing tree of Go 1.22 and later selects on
`URL.EscapedPath()`, segment by segment; that has the segments of `URL.Path`
whenever `URL.RawPath` is empty, and can differ when it is set, as for
"/debug/pprof%2Fcmdline".  The precedence statements about whole requests are
therefore made for requests with an empty `RawPath`.) -/
def ServeMux.Handler (lib : Lib) (mux : ServeMux) (r : Request) : Handler × Str :=
  if r.method == "CONNECT".toList then
    -- CONNECT requests are not canonicalized.
    match mux.redirectToPathSlash r.url.host r.url.path r.url with
    | some u => (Handler.RedirectHandler u lib.redirectCode, u.path)
    | none => mux.handler r.host r.url.path
  else
    let host := lib.stripHostPort r.host
    let path := cleanPath r.url.path
    match mux.redirectToPathSlash host path r.url with
    | some u => (Handler.RedirectHandler u lib.redirectCode, u.path)
    | none =>
      if path != r.url.path then
        let pattern := (mux.handler host path).2
        (Handler.RedirectHandler
          { host := [], path := path, rawPath := [], rawQuery := r.url.rawQuery }
          lib.redirectCode, pattern)
      else mux.handler host r.url.path

/-- Go `(*ServeMux).ServeHTTP`: dispatch of one request. -/
def ServeMux.ServeHTTP (lib : Lib) (mux : ServeMux) (r : Request) : Effect :=
  if r.requestURI == ['*'] then
    if r.ProtoAtLeast 1 1 then
      Effect.headerSet "Connection".toList "close".toList (Effect.writeHeader 400 Effect.ret)
    else Effect.writeHeader 400 Effect.ret
  else (mux.Handler lib r).1.ServeHTTP lib r

/-! ## Running a handler against a `ResponseWriter` -/

/-- One call made by a handler. -/
inductive Call where
  /-- `w.Header().Set(key, value)`. -/
  | headerSet (key value : Str)
  /-- `w.WriteHeader(statusCode)`. -/
  | writeHeader (statusCode : Nat)
  /-- `w.Write(data)`. -/
  | write (data : Str)
  /-- `mux.HandleFunc(pattern, h)`. -/
  | handleFunc (pattern : Str) (h : Handler)
  deriving DecidableEq

/-- An implementation of the interface `http.ResponseWriter` with state `σ`.
`Write` returns the new state and the results `(n, err)`; it may fail. -/
structure ResponseWriter (σ : Type) where
  /-- `Header().Set`. -/
  headerSet : σ → Str → Str → σ
  /-- `WriteHeader`. -/
  WriteHeader : σ → Nat → σ
  /-- `Write`. -/
  Write : σ → Str → σ × Nat × Option Str

/-- The state of a handler run: the serving mux, the writer, the calls made so far,
and the panic message if the run panicked (the server recovers it). -/
structure Run (σ : Type) where
  /-- The serving mux. -/
  mux : ServeMux
  /-- The writer state. -/
  w : σ
  /-- The calls made, oldest first. -/
  calls : List Call
  /-- The panic that ended the run, if any. -/
  panicked : Option Str

/-- Run a handler's calls against the writer `W` and the serving mux. -/
def Effect.run {σ : Type} (W : ResponseWriter σ) : Effect → Run σ → Run σ
  | Effect.ret, s => s
  | Effect.headerSet k v next, s =>
    next.run W { s with w := W.headerSet s.w k v, calls := s.calls ++ [Call.headerSet k v] }
  | Effect.writeHeader code next, s =>
    next.run W { s with w := W.WriteHeader s.w code, calls := s.calls ++ [Call.writeHeader code] }
  | Effect.write data next, s =>
    let res := W.Write s.w data
    (next res.2.1 res.2.2).run W { s with w := res.1, calls := s.calls ++ [Call.write data] }
  | Effect.handleFunc pattern h next, s =>
    match s.mux.HandleFunc pattern h with
    | Except.ok mux => next.run W { s with mux := mux, calls := s.calls ++ [Call.handleFunc pattern h] }
    | Except.error msg =>
      { s with calls := s.calls ++ [Call.handleFunc pattern h], panicked := some msg }

/-- A handler run that makes no `HandleFunc` call, whatever its writes return. -/
def Effect.RegistersNothing : Effect → Prop
  | Effect.ret => True
  | Effect.headerSet _ _ next => next.RegistersNothing
  | Effect.writeHeader _ next => next.RegistersNothing
  | Effect.write _ next => ∀ n err, (next n err).RegistersNothing
  | Effect.handleFunc _ _ _ => False

/-- The reply as seen at the `http.ResponseWriter` interface: the status code of the
first `WriteHeader`, the header fields set before it, and the bytes written.  (What
the transport does with them, such as leaving the body off the wire for a HEAD
request, is below this interface.) -/
structure Response where
  /-- Whether `WriteHeader` has been called. -/
  wroteHeader : Bool
  /-- The status code. -/
  status : Nat
  /-- The header fields set by the handler. -/
  header : List (Str × Str)
  /-- The bytes written. -/
  body : Str
  deriving DecidableEq

/-- The writer handed to the handler of a new request. -/
def Response.new : Response := { wroteHeader := false, status := 200, header := [], body := [] }

/-- `Header().Set`: replaces the field; without effect once the header is written. -/
def Response.headerSet (w : Response) (k v : Str) : Response :=
  if w.wroteHeader then w
  else { w with header := w.header.filter (fun kv => kv.1 != k) ++ [(k, v)] }

/-- `WriteHeader`: the first call fixes the status, later calls are ignored. -/
def Response.WriteHeader (w : Response) (code : Nat) : Response :=
  if w.wroteHeader then w else { w with wroteHeader := true, status := code }

/-- `Write`: "if WriteHeader has not yet been called, Write calls
WriteHeader(http.StatusOK) before writing the data". -/
def Response.Write (w : Response) (data : Str) : Response × Nat × Option Str :=
  let w1 := if w.wroteHeader then w else w.WriteHeader 200
  ({ w1 with body := w1.body ++ data }, data.length, none)

/-- The recording writer. -/
def Response.writer : ResponseWriter Response :=
  { headerSet := Response.headerSet, WriteHeader := Response.WriteHeader, Write := Response.Write }

/-- When the handler has returned the server sends the header if it is still unsent. -/
def Response.finish (w : Response) : Response :=
  if w.wroteHeader then w else w.WriteHeader 200

/-- Dispatch of one request through `mux`, and the reply it produces. -/
def dispatch (lib : Lib) (mux : ServeMux) (r : Request) : Response :=
  ((mux.ServeHTTP lib r).run Response.writer
    { mux := mux, w := Response.new, calls := [], panicked := none }).w.finish

/-- The server loop on the requests `reqs`, one after the other: for each request the
mux it was dispatched on and its reply. -/
def Serve (lib : Lib) : ServeMux → List Request → List (ServeMux × Response)
  | _, [] => []
  | mux, r :: rs =>
    let s := (mux.ServeHTTP lib r).run Response.writer
      { mux := mux, w := Response.new, calls := [], panicked := none }
    (mux, s.w.finish) :: Serve lib s.mux rs

/-! ## `main` -/

/-- Lines 17 to 24 of `main.go`: the six `r.HandleFunc` calls, in order. -/
def registrations : List (Str × Handler) :=
  [ ("/".toList, Handler.hiHandler),
    ("/debug/pprof/".toList, Handler.pprofIndex),
    ("/debug/pprof/cmdline".toList, Handler.pprofCmdline),
    ("/debug/pprof/profile".toList, Handler.pprofProfile),
    ("/debug/pprof/symbol".toList, Handler.pprofSymbol),
    ("/debug/pprof/trace".toList, Handler.pprofTrace) ]

/-- The local variable `r` of `main` and the panic raised so far, if any. -/
structure Setup where
  /-- The mux `r`. -/
  r : ServeMux
  /-- The message of the panic that stopped `main`. -/
  panic : Option Str
  deriving DecidableEq

/-- One `r.HandleFunc(pattern, handler)` statement of `main`. -/
def Setup.register (s : Setup) (ph : Str × Handler) : Setup :=
  match s.panic with
  | some _ => s
  | none =>
    match s.r.HandleFunc ph.1 ph.2 with
    | Except.ok mux => { s with r := mux }
    | Except.error msg => { s with panic := some msg }

/-- The state of `main` after `r := http.NewServeMux()` and the first `k` registrations. -/
def setupAfter (k : Nat) : Setup :=
  (registrations.take k).foldl Setup.register { r := NewServeMux, panic := none }

/-- The mux `r` that `main` passes to `http.ListenAndServe`. -/
def mainMux : ServeMux := (setupAfter registrations.length).r

/-- The value of the mux after the six registrations. -/
def mainTable : ServeMux :=
  { m := [("/debug/pprof/trace".toList, ⟨Handler.pprofTrace, "/debug/pprof/trace".toList⟩),
          ("/debug/pprof/symbol".toList, ⟨Handler.pprofSymbol, "/debug/pprof/symbol".toList⟩),
          ("/debug/pprof/profile".toList, ⟨Handler.pprofProfile, "/debug/pprof/profile".toList⟩),
          ("/debug/pprof/cmdline".toList, ⟨Handler.pprofCmdline, "/debug/pprof/cmdline".toList⟩),
          ("/debug/pprof/".toList, ⟨Handler.pprofIndex, "/debug/pprof/".toList⟩),
          ("/".toList, ⟨Handler.hiHandler, "/".toList⟩)],
    es := [⟨Handler.pprofIndex, "/debug/pprof/".toList⟩, ⟨Handler.hiHandler, "/".toList⟩],
    hosts := false }

/-- What happens inside `http.ListenAndServe(addr, handler)`: either binding the port
fails and the error is returned at once, or the server loop serves requests until it
returns its (always non-nil) error. -/
inductive Listen where
  /-- `net.Listen` failed with `err`. -/
  | bindError (err : Str)
  /-- The server loop served `reqs`, then returned `err`. -/
  | served (reqs : List Request) (err : Str)

/-- The observable outcome of the process. -/
structure Proc where
  /-- The exit code. -/
  exitCode : Nat
  /-- What was written to standard error. -/
  stderr : List Str
  /-- The replies sent, oldest first. -/
  replies : List Response
  deriving DecidableEq

/-- Go `http.ListenAndServe(addr, handler)`: the replies sent and the error returned. -/
def ListenAndServe (lib : Lib) (env : Listen) (_addr : Str) (handler : ServeMux) :
    List Response × Str :=
  match env with
  | Listen.bindError err => ([], err)
  | Listen.served reqs err => ((Serve lib handler reqs).map Prod.snd, err)

/-- `main.go`, `main`: build the mux, register the six routes, call
`http.ListenAndServe(":8080", r)` and drop its result; then `main` returns, which
ends a Go program with exit code 0.  An unrecovered panic ends it with exit code 2
and the panic message on standard error. -/
def main (lib : Lib) (env : Listen) : Proc :=
  let s := setupAfter registrations.length
  match s.panic with
  | some msg => { exitCode := 2, stderr := ["panic: ".toList ++ msg], replies := [] }
  | none =>
    let res := ListenAndServe lib env ":8080".toList s.r
    { exitCode := 0, stderr := [], replies := res.1 }

/-- The host name `(*ServeMux).Handler` uses in its trailing-slash check: `r.URL.Host`
for a CONNECT request, `stripHostPort(r.Host)` otherwise. -/
def Request.muxHost (lib : Lib) (r : Request) : Str :=
  if r.method == "CONNECT".toList then r.url.host else lib.stripHostPort r.host

/-- A library whose pprof handlers write nothing, for concrete evaluation. -/
def Lib.quiet : Lib :=
  { Index := fun _ => Effect.ret, Cmdline := fun _ => Effect.ret, Profile := fun _ => Effect.ret,
    Symbol := fun _ => Effect.ret, Trace := fun _ => Effect.ret, stripHostPort := fun h => h,
    redirectCode := 301,
    redirectHeader := fun u _ => [("Location".toList, u.path)], redirectBody := fun _ _ _ => none }

/-- The request `method path HTTP/1.1` with Host `host`, no header fields and no body. -/
def Request.simple (method path host : Str) (h : path.head? = some '/') : Request :=
  { method := method, url := { host := [], path := path, rawPath := [], rawQuery := [] },
    host := host,
    requestURI := path, protoMajor := 1, protoMinor := 1, header := [], body := [],
    star := by
      intro hs
      rw [hs] at h
      simp at h }

/-- No pprof handler of the library registers a route on the serving mux (they have
no access to `r`, a local variable of `main`). -/
def Lib.RegistersNothing (lib : Lib) : Prop :=
  ∀ r : Request, (lib.Index r).RegistersNothing ∧ (lib.Cmdline r).RegistersNothing ∧
    (lib.Profile r).RegistersNothing ∧ (lib.Symbol r).RegistersNothing ∧
    (lib.Trace r).RegistersNothing

/-- The request `GET path HTTP/1.1` with Host "localhost". -/
def Request.get (path : Str) (h : path.head? = some '/') : Request :=
  Request.simple "GET".toList path "localhost".toList h

/-- The request `CONNECT example.com:443 HTTP/1.1`: the target is an authority, the
path is empty. -/
def Request.connectAuthority : Request :=
  { method := "CONNECT".toList,
    url := { host := "example.com:443".toList, path := [], rawPath := [], rawQuery := [] },
    host := "example.com:443".toList, requestURI := "example.com:443".toList,
    protoMajor := 1, protoMinor := 1, header := [], body := [], star := fun _ => Or.inr rfl }

/-- The reply of `http.NotFound`. -/
def Response.notFound : Response :=
  { wroteHeader := true, status := 404,
    header := [("Content-Type".toList, "text/plain; charset=utf-8".toList),
               ("X-Content-Type-Options".toList, "nosniff".toList)],
    body := "404 page not found\n".toList }

/-! ## `path.Clean` and `cleanPath` on sample paths -/

/-- The embedding of `path.Clean` agrees with the library on the cases of its
documentation and tests. -/
theorem Clean_samples :
    Clean "".toList = ".".toList ∧
    Clean "/".toList = "/".toList ∧
    Clean "abc//def//ghi".toList = "abc/def/ghi".toList ∧
    Clean "abc/./../def".toList = "def".toList ∧
    Clean "abc/def/../../..".toList = "..".toList ∧
    Clean "/../abc".toList = "/abc".toList ∧
    Clean "../../abc".toList = "../../abc".toList ∧
    Clean "/abc/def/../ghi/".toList = "/abc/ghi".toList ∧
    Clean "a/../../b".toList = "../b".toList := by
  decide

/-- The canonical form of sample request paths. -/
theorem cleanPath_samples :
    cleanPath "".toList = "/".toList ∧
    cleanPath "/".toList = "/".toList ∧
    cleanPath "foo/".toList = "/foo/".toList ∧
    cleanPath "//foo".toList = "/foo".toList ∧
    cleanPath "/a/../".toList = "/".toList ∧
    cleanPath "/debug/pprof".toList = "/debug/pprof".toList ∧
    cleanPath "/debug/pprof//heap".toList = "/debug/pprof/heap".toList ∧
    cleanPath "/debug/pprof/".toList = "/debug/pprof/".toList := by
  decide

/-! ## The bounded loops run to completion -/

theorem length_dropWhile_le (q : Char → Bool) (l : Str) : (l.dropWhile q).length ≤ l.length := by
  induction l with
  | nil => simp
  | cons a l ih =>
    simp only [List.dropWhile]
    split
    · exact Nat.le_succ_of_le ih
    · exact Nat.le_refl _

/-- The loop of `path.Clean` ends by exhausting its input, not its bound: any two
bounds of at least the length of the remaining input give the same result. -/
theorem cleanLoop_fuel (rooted : Bool) (f1 : Nat) :
    ∀ (f2 : Nat) (rest out : Str) (dotdot : Nat), rest.length ≤ f1 → rest.length ≤ f2 →
      cleanLoop rooted f1 rest out dotdot = cleanLoop rooted f2 rest out dotdot := by
  induction f1 with
  | zero =>
    intro f2 rest out dotdot h1 _
    have hr : rest = [] := List.length_eq_zero.mp (Nat.le_zero.mp h1)
    subst hr
    cases f2 <;> simp [cleanLoop]
  | succ n ih =>
    intro f2 rest out dotdot h1 h2
    cases f2 with
    | zero =>
      have hr : rest = [] := List.length_eq_zero.mp (Nat.le_zero.mp h2)
      subst hr
      simp [cleanLoop]
    | succ m =>
      cases rest with
      | nil => simp [cleanLoop]
      | cons c tl =>
        have l1 : tl.length ≤ n := by simpa using h1
        have l2 : tl.length ≤ m := by simpa using h2
        have t1 : tl.tail.length ≤ n := by
          have := List.length_tail tl
          omega
        have t2 : tl.tail.length ≤ m := by
          have := List.length_tail tl
          omega
        simp only [cleanLoop]
        split
        · exact ih m tl out dotdot l1 l2
        · split
          · exact ih m tl out dotdot l1 l2
          · split
            · split
              · exact ih m _ _ _ t1 t2
              · split
                · exact ih m _ _ _ t1 t2
                · exact ih m _ _ _ t1 t2
            · rename_i hc _ _
              have hd : ((c :: tl).dropWhile (· != '/')).length ≤ tl.length := by
                have hne : (c != '/') = true := by
                  simpa using hc
                simp only [List.dropWhile, hne]
                exact length_dropWhile_le _ tl
              exact ih m _ _ _ (Nat.le_trans hd l1) (Nat.le_trans hd l2)

/-- The binary search of `sort.Search` ends by closing its interval, not by its bound. -/
theorem searchLoop_fuel (f : Nat → Bool) (f1 : Nat) :
    ∀ (f2 i j : Nat), j - i ≤ f1 → j - i ≤ f2 → searchLoop f f1 i j = searchLoop f f2 i j := by
  induction f1 with
  | zero =>
    intro f2 i j h1 _
    have hij : ¬ i < j := by omega
    cases f2 <;> simp [searchLoop, hij]
  | succ n ih =>
    intro f2 i j h1 h2
    cases f2 with
    | zero =>
      have hij : ¬ i < j := by omega
      simp [searchLoop, hij]
    | succ m =>
      simp only [searchLoop]
      split
      · rename_i hij
        have hh : i ≤ (i + j) / 2 ∧ (i + j) / 2 < j := by omega
        split
        · exact ih m _ _ (by omega) (by omega)
        · exact ih m _ _ (by omega) (by omega)
      · rfl

/-! ## A cleaned path is rooted -/

theorem backtrackLoop_ge (out : Str) (dotdot : Nat) (w : Nat) :
    min w dotdot ≤ backtrackLoop out dotdot w := by
  induction w with
  | zero => simp [backtrackLoop]
  | succ n ih =>
    simp only [backtrackLoop]
    split
    · rename_i h
      have hgt : n + 1 > dotdot := by
        simp only [Bool.and_eq_true, decide_eq_true_eq] at h
        exact h.1
      omega
    · omega

theorem head?_take_of_pos (l : Str) (k : Nat) (hk : 1 ≤ k) : (l.take k).head? = l.head? := by
  cases l with
  | nil => simp
  | cons a l =>
    cases k with
    | zero => omega
    | succ k => simp

theorem head?_append_of_head? (l l2 : Str) (c : Char) (h : l.head? = some c) :
    (l ++ l2).head? = some c := by
  cases l with
  | nil => simp at h
  | cons a l => simpa using h

theorem backtrack_head? (out : Str) (h : out.head? = some '/') (hl : out.length > 1) :
    (backtrack out 1).head? = some '/' := by
  unfold backtrack
  rw [head?_take_of_pos _ _ _, h]
  have := backtrackLoop_ge out 1 (out.length - 1)
  omega

/-- On a rooted path the loop of `path.Clean` keeps the leading slash. -/
theorem cleanLoop_rooted_head? (fuel : Nat) :
    ∀ (rest out : Str), out.head? = some '/' →
      (cleanLoop true fuel rest out 1).head? = some '/' := by
  induction fuel with
  | zero => intro rest out h; simpa [cleanLoop] using h
  | succ n ih =>
    intro rest out h
    cases rest with
    | nil => simpa [cleanLoop] using h
    | cons c tl =>
      simp only [cleanLoop]
      split
      · exact ih _ _ h
      · split
        · exact ih _ _ h
        · split
          · split
            · rename_i hl
              exact ih _ _ (backtrack_head? out h hl)
            · split
              · rename_i hr
                simp at hr
              · exact ih _ _ h
          · apply ih
            split
            · exact head?_append_of_head? _ _ _ (head?_append_of_head? _ _ _ h)
            · exact head?_append_of_head? _ _ _ h

theorem Clean_rooted (p : Str) (h : p.head? = some '/') : (Clean p).head? = some '/' := by
  have hne : p.isEmpty = false := by
    cases p with
    | nil => simp at h
    | cons a l => rfl
  have hc := cleanLoop_rooted_head? p.length p.tail ['/'] rfl
  unfold Clean
  simp only [hne, h, beq_self_eq_true, if_true, Bool.false_eq_true, if_false]
  split
  · rename_i he
    cases hx : cleanLoop true p.length p.tail ['/'] 1 with
    | nil => rw [hx] at hc; simp at hc
    | cons a l => rw [hx] at he; simp at he
  · exact hc

theorem cleanPath_body_rooted (q : Str) (hq : q.head? = some '/') :
    (if (q.getLast? == some '/' && Clean q != ['/']) = true then
      if (q.length == (Clean q).length + 1 && HasPrefix q (Clean q)) = true then q
      else Clean q ++ ['/']
    else Clean q).head? = some '/' := by
  have hnp := Clean_rooted q hq
  split
  · split
    · exact hq
    · exact head?_append_of_head? _ _ _ hnp
  · exact hnp

/-- The canonical form of a path always begins with a slash. -/
theorem cleanPath_rooted (p : Str) : (cleanPath p).head? = some '/' := by
  unfold cleanPath
  by_cases he : p.isEmpty = true
  · simp [he]
  · simp only [he, if_false]
    apply cleanPath_body_rooted
    split
    · rfl
    · rename_i hh
      simpa using hh

/-! ## The route table of `main`, evaluated -/

theorem mainMux_eq : mainMux = mainTable := by decide

theorem setupAfter_panic_none : (setupAfter registrations.length).panic = none := by decide

theorem lookup_cons_ite {β : Type} (k a : Str) (b : β) (es : List (Str × β)) :
    List.lookup k ((a, b) :: es) = if k = a then some b else List.lookup k es := by
  by_cases h : k = a
  · subst h; simp [List.lookup]
  · have : (k == a) = false := by simpa using h
    simp [List.lookup, this, h]

theorem find?_cons_ite {α : Type} (p : α → Bool) (a : α) (l : List α) :
    (a :: l).find? p = if p a = true then some a else l.find? p := by
  cases h : p a <;> simp [List.find?, h]

theorem lookup_mainMux (path : Str) :
    mainMux.m.lookup path =
      if path = "/debug/pprof/trace".toList then
        some ⟨Handler.pprofTrace, "/debug/pprof/trace".toList⟩
      else if path = "/debug/pprof/symbol".toList then
        some ⟨Handler.pprofSymbol, "/debug/pprof/symbol".toList⟩
      else if path = "/debug/pprof/profile".toList then
        some ⟨Handler.pprofProfile, "/debug/pprof/profile".toList⟩
      else if path = "/debug/pprof/cmdline".toList then
        some ⟨Handler.pprofCmdline, "/debug/pprof/cmdline".toList⟩
      else if path = "/debug/pprof/".toList then
        some ⟨Handler.pprofIndex, "/debug/pprof/".toList⟩
      else if path = "/".toList then some ⟨Handler.hiHandler, "/".toList⟩
      else none := by
  rw [mainMux_eq]
  simp only [mainTable, lookup_cons_ite, List.lookup_nil]

/-- The table lookup `match` on the mux of `main`, as a decision list. -/
theorem match_mainMux (path : Str) :
    mainMux.match_ path =
      if path = "/debug/pprof/trace".toList then
        some (Handler.pprofTrace, "/debug/pprof/trace".toList)
      else if path = "/debug/pprof/symbol".toList then
        some (Handler.pprofSymbol, "/debug/pprof/symbol".toList)
      else if path = "/debug/pprof/profile".toList then
        some (Handler.pprofProfile, "/debug/pprof/profile".toList)
      else if path = "/debug/pprof/cmdline".toList then
        some (Handler.pprofCmdline, "/debug/pprof/cmdline".toList)
      else if HasPrefix path "/debug/pprof/".toList then
        some (Handler.pprofIndex, "/debug/pprof/".toList)
      else if HasPrefix path "/".toList then some (Handler.hiHandler, "/".toList)
      else none := by
  unfold ServeMux.match_
  rw [lookup_mainMux]
  by_cases h1 : path = "/debug/pprof/trace".toList
  · simp [h1]
  by_cases h2 : path = "/debug/pprof/symbol".toList
  · simp [h2]
  by_cases h3 : path = "/debug/pprof/profile".toList
  · simp [h3]
  by_cases h4 : path = "/debug/pprof/cmdline".toList
  · simp [h4]
  by_cases h5 : path = "/debug/pprof/".toList
  · subst h5; decide
  by_cases h6 : path = "/".toList
  · subst h6; decide
  simp only [h1, h2, h3, h4, h5, h6, if_false]
  rw [mainMux_eq]
  simp only [mainTable, find?_cons_ite, List.find?_nil]
  split_ifs <;> rfl

theorem mainMux_hosts : mainMux.hosts = false := by decide

/-- The lookup `handler` on the mux of `main` ignores the host. -/
theorem handler_mainMux (host path : Str) :
    mainMux.handler host path =
      match mainMux.match_ path with
      | some hp => hp
      | none => (Handler.NotFoundHandler, []) := by
  unfold ServeMux.handler
  simp [mainMux_hosts]

/-! ## Dispatch on the mux of `main` -/

theorem shouldRedirect_false_of_lookup (mux : ServeMux) (host path : Str)
    (h : (mux.m.lookup path).isSome = true) : mux.shouldRedirectRLocked host path = false := by
  unfold ServeMux.shouldRedirectRLocked
  simp [h]

/-- A request that is not redirected is resolved by the table lookup on its path. -/
theorem Handler_mainMux_of_no_redirect (lib : Lib) (r : Request)
    (hred : mainMux.shouldRedirectRLocked (r.muxHost lib) r.url.path = false)
    (hc : r.method = "CONNECT".toList ∨ cleanPath r.url.path = r.url.path) :
    mainMux.Handler lib r = mainMux.handler [] r.url.path := by
  unfold ServeMux.Handler
  by_cases hm : r.method = "CONNECT".toList
  · have hh : r.muxHost lib = r.url.host := by
      simp only [Request.muxHost, hm, beq_self_eq_true, if_true]
    rw [hh] at hred
    simp only [hm, beq_self_eq_true, if_true, ServeMux.redirectToPathSlash, hred,
      Bool.false_eq_true, if_false]
    rw [handler_mainMux, handler_mainMux]
  · have hcl : cleanPath r.url.path = r.url.path := by
      rcases hc with h | h
      · exact absurd h hm
      · exact h
    have hb : (r.method == "CONNECT".toList) = false := beq_eq_false_iff_ne.mpr hm
    have hh : r.muxHost lib = lib.stripHostPort r.host := by
      simp only [Request.muxHost, hb, Bool.false_eq_true, if_false]
    rw [hh] at hred
    simp only [hb, Bool.false_eq_true, if_false, hcl, ServeMux.redirectToPathSlash, hred,
      bne_self_eq_false]
    rw [handler_mainMux, handler_mainMux]

theorem requestURI_ne_star_of_rooted (r : Request) (h : r.url.path.head? = some '/') :
    (r.requestURI == ['*']) = false := by
  cases hb : r.requestURI == ['*'] with
  | false => rfl
  | true =>
    have he : r.requestURI = ['*'] := by simpa using hb
    rcases r.star he with h1 | h1 <;> rw [h1] at h <;> simp at h

/-- The reply produced when the selected handler is `hiHandler`. -/
theorem dispatch_of_hiHandler (lib : Lib) (mux : ServeMux) (r : Request)
    (hs : (r.requestURI == ['*']) = false) (hh : (mux.Handler lib r).1 = Handler.hiHandler) :
    dispatch lib mux r =
      { wroteHeader := true, status := 200, header := [], body := "hi".toList } := by
  unfold dispatch ServeMux.ServeHTTP
  simp only [hs, Bool.false_eq_true, if_false, hh, Handler.ServeHTTP]
  rfl

/-! ## The application route (C1) -/

/-- C1: every request whose path is exactly "/", whatever its method, host, header
fields and body, is dispatched by the router built in `main` to `hiHandler`, and
the reply has status 200 and the body "hi". -/
theorem root_path_replies_hi (lib : Lib) (r : Request) (h : r.url.path = "/".toList) :
    (mainMux.Handler lib r).1 = Handler.hiHandler ∧
    (dispatch lib mainMux r).status = 200 ∧
    (dispatch lib mainMux r).body = "hi".toList := by
  have hsel : (mainMux.Handler lib r).1 = Handler.hiHandler := by
    rw [Handler_mainMux_of_no_redirect lib r
      (shouldRedirect_false_of_lookup _ _ _ (by rw [h]; decide))
      (Or.inr (by rw [h]; decide))]
    rw [h]
    decide
  have hstar := requestURI_ne_star_of_rooted r (by rw [h]; rfl)
  rw [dispatch_of_hiHandler lib mainMux r hstar hsel]
  exact ⟨hsel, rfl, rfl⟩

/-- C1 at a POST request for "/" with a Host, a header field and a body. -/
theorem root_path_replies_hi_witness :
    (⟨"POST".toList, ⟨[], "/".toList, [], "x=1".toList⟩, "localhost:8080".toList, "/?x=1".toList, 1, 1,
        [("Accept".toList, "*/*".toList)], "payload".toList, by decide⟩ : Request).url.path
      = "/".toList ∧
    (dispatch Lib.quiet mainMux
      ⟨"POST".toList, ⟨[], "/".toList, [], "x=1".toList⟩, "localhost:8080".toList, "/?x=1".toList, 1, 1,
        [("Accept".toList, "*/*".toList)], "payload".toList, by decide⟩).status = 200 ∧
    (dispatch Lib.quiet mainMux
      ⟨"POST".toList, ⟨[], "/".toList, [], "x=1".toList⟩, "localhost:8080".toList, "/?x=1".toList, 1, 1,
        [("Accept".toList, "*/*".toList)], "payload".toList, by decide⟩).body = "hi".toList :=
  ⟨rfl, (root_path_replies_hi Lib.quiet _ rfl).2⟩

/-! ## The table lookup, by cases -/

/-- The table lookup on the mux of `main`, by cases on the path. -/
theorem handler_mainMux_cases (host path : Str) :
    mainMux.handler host path =
      if path = "/debug/pprof/trace".toList then
        (Handler.pprofTrace, "/debug/pprof/trace".toList)
      else if path = "/debug/pprof/symbol".toList then
        (Handler.pprofSymbol, "/debug/pprof/symbol".toList)
      else if path = "/debug/pprof/profile".toList then
        (Handler.pprofProfile, "/debug/pprof/profile".toList)
      else if path = "/debug/pprof/cmdline".toList then
        (Handler.pprofCmdline, "/debug/pprof/cmdline".toList)
      else if HasPrefix path "/debug/pprof/".toList then
        (Handler.pprofIndex, "/debug/pprof/".toList)
      else if HasPrefix path "/".toList then (Handler.hiHandler, "/".toList)
      else (Handler.NotFoundHandler, []) := by
  rw [handler_mainMux, match_mainMux]
  split_ifs <;> rfl

theorem HasPrefix_slash_iff (path : Str) :
    HasPrefix path "/".toList = true ↔ path.head? = some '/' := by
  cases path with
  | nil => simp [HasPrefix, String.toList]
  | cons c tl =>
    simp only [HasPrefix, String.toList, List.isPrefixOf, Bool.and_true, beq_iff_eq,
      List.head?_cons, Option.some.injEq]
    exact eq_comm

/-- Every registered pattern begins with a slash. -/
theorem head?_of_lookup_mainMux (q : Str) (h : (mainMux.m.lookup q).isSome = true) :
    q.head? = some '/' := by
  rw [lookup_mainMux] at h
  split_ifs at h with h1 h2 h3 h4 h5 h6
  · rw [h1]; rfl
  · rw [h2]; rfl
  · rw [h3]; rfl
  · rw [h4]; rfl
  · rw [h5]; rfl
  · rw [h6]; rfl
  · simp at h

/-- The registered patterns that end in a slash are "/" and "/debug/pprof/". -/
theorem lookup_mainMux_append_slash (q : Str) (h : (mainMux.m.lookup (q ++ ['/'])).isSome = true) :
    q = [] ∨ q = "/debug/pprof".toList := by
  rw [lookup_mainMux] at h
  have hl : (q ++ ['/']).getLast? = some '/' := by simp
  split_ifs at h with h1 h2 h3 h4 h5 h6
  · rw [h1] at hl; exact absurd hl (by decide)
  · rw [h2] at hl; exact absurd hl (by decide)
  · rw [h3] at hl; exact absurd hl (by decide)
  · rw [h4] at hl; exact absurd hl (by decide)
  · right
    have h5b : q ++ ['/'] = "/debug/pprof".toList ++ ['/'] := by rw [h5]; rfl
    exact List.append_cancel_right h5b
  · left
    have h6b : q ++ ['/'] = [] ++ ['/'] := by rw [h6]; rfl
    exact List.append_cancel_right h6b
  · simp at h

theorem head?_append_of_ne_nil (a b : Str) (h : a ≠ []) : (a ++ b).head? = a.head? := by
  cases a with
  | nil => exact absurd rfl h
  | cons c tl => rfl

/-- With a host name that does not begin with a slash (as every host name the server
accepts), the trailing-slash redirect applies to the path "/debug/pprof" and to no
other. -/
theorem shouldRedirect_mainMux_iff (host path : Str) (hh : host.head? ≠ some '/') :
    mainMux.shouldRedirectRLocked host path = true ↔ path = "/debug/pprof".toList := by
  have hhost : ∀ x : Str, (mainMux.m.lookup (host ++ x)).isSome = true →
      host = [] := by
    intro x hx
    by_contra hne
    have := head?_of_lookup_mainMux _ hx
    rw [head?_append_of_ne_nil _ _ hne] at this
    exact hh this
  constructor
  · intro h
    unfold ServeMux.shouldRedirectRLocked at h
    simp only [List.any_cons, List.any_nil, Bool.or_false] at h
    split_ifs at h with c1 c2 c3
    simp only [Bool.or_eq_true] at c3
    rcases c3 with c3 | c3
    · rcases lookup_mainMux_append_slash _ c3 with e | e
      · subst e; simp at c2
      · exact e
    · have he := hhost (path ++ ['/']) (by rw [← List.append_assoc]; exact c3)
      subst he
      rcases lookup_mainMux_append_slash _ c3 with e | e
      · simp at e
        subst e; simp at c2
      · simpa using e
  · intro h
    subst h
    have hx : (mainMux.m.lookup (host ++ "/debug/pprof".toList)).isSome = false := by
      cases hc : (mainMux.m.lookup (host ++ "/debug/pprof".toList)).isSome with
      | false => rfl
      | true =>
        have he := hhost _ hc
        subst he
        exact absurd hc (by decide)
    unfold ServeMux.shouldRedirectRLocked
    simp only [List.any_cons, List.any_nil, Bool.or_false, hx]
    have h1 : (mainMux.m.lookup "/debug/pprof".toList).isSome = false := by decide
    have h2 : (mainMux.m.lookup ("/debug/pprof".toList ++ ['/'])).isSome = true := by decide
    rw [h1, h2]
    simp

theorem handler_mainMux_of_unrooted (host path : Str) (h : path.head? ≠ some '/') :
    mainMux.handler host path = (Handler.NotFoundHandler, []) := by
  rw [handler_mainMux_cases]
  rw [Ne, ← HasPrefix_slash_iff] at h
  have hne : ∀ q : Str, HasPrefix q "/".toList = true → path ≠ q := by
    intro q hq he
    rw [he] at h
    exact h hq
  have h5 : ¬ HasPrefix path "/debug/pprof/".toList = true := by
    intro h5
    apply h
    cases path with
    | nil => simp [HasPrefix] at h5
    | cons c tl =>
      simp only [HasPrefix, String.toList, List.isPrefixOf, Bool.and_eq_true] at h5
      simp only [HasPrefix, String.toList, List.isPrefixOf, Bool.and_eq_true]
      exact ⟨h5.1, trivial⟩
  rw [if_neg (hne _ (by decide)), if_neg (hne _ (by decide)), if_neg (hne _ (by decide)),
    if_neg (hne _ (by decide)), if_neg h5, if_neg h]

/-- The table lookup finds no route exactly for the paths that do not begin with a
slash. -/
theorem handler_mainMux_notFound_iff (host path : Str) :
    (mainMux.handler host path).1 = Handler.NotFoundHandler ↔ path.head? ≠ some '/' := by
  constructor
  · intro h
    rw [handler_mainMux_cases] at h
    rw [Ne, ← HasPrefix_slash_iff]
    split_ifs at h with h1 h2 h3 h4 h5 h6
    exact h6
  · intro h
    rw [handler_mainMux_of_unrooted host path h]

/-! ## Precedence (C3) -/

/-- C2 as stated fails: "/foo" is not a registered pattern, yet the request
`GET /foo` is answered with status 200 and the body "hi", not with 404. -/
theorem unregistered_path_gets_hi :
    "/foo".toList ∉ registrations.map Prod.fst ∧
    (dispatch Lib.quiet mainMux (Request.get "/foo".toList (by decide))).status = 200 ∧
    (dispatch Lib.quiet mainMux (Request.get "/foo".toList (by decide))).body = "hi".toList := by
  decide

/-- The handler selected for a request is the not-found handler only for a CONNECT
request whose path does not begin with a slash. -/
theorem Handler_notFound_only_connect (lib : Lib) (r : Request)
    (h : (mainMux.Handler lib r).1 = Handler.NotFoundHandler) :
    r.method = "CONNECT".toList ∧ r.url.path.head? ≠ some '/' := by
  unfold ServeMux.Handler at h
  by_cases hm : r.method = "CONNECT".toList
  · refine ⟨hm, ?_⟩
    simp only [hm, beq_self_eq_true, if_true] at h
    cases hr : mainMux.redirectToPathSlash r.url.host r.url.path r.url with
    | some u => rw [hr] at h; exact absurd h (by simp)
    | none =>
      rw [hr] at h
      exact (handler_mainMux_notFound_iff _ _).mp h
  · exfalso
    have hb : (r.method == "CONNECT".toList) = false := beq_eq_false_iff_ne.mpr hm
    simp only [hb, Bool.false_eq_true, if_false] at h
    cases hr : mainMux.redirectToPathSlash (lib.stripHostPort r.host) (cleanPath r.url.path) r.url with
    | some u => rw [hr] at h; exact absurd h (by simp)
    | none =>
      rw [hr] at h
      simp only at h
      split_ifs at h with hc
      have hcl : cleanPath r.url.path = r.url.path := by simpa using hc
      have hroot := cleanPath_rooted r.url.path
      rw [hcl] at hroot
      exact (handler_mainMux_notFound_iff _ _).mp h hroot

/-- C2, amended: dispatch through the router built in `main` answers with the
not-found response only when no registered pattern matches the path, and since "/"
is registered as a subtree pattern that is exactly when the path does not begin with
a slash; only a CONNECT request can bring such a path to the table.  For such a
request (its host name not beginning with a slash, its target not "*") the reply is
the not-found response: status 404 with the body "404 page not found" and a newline;
never an error, never another handler's reply.  A path that begins with a slash is
never answered by the not-found handler, registered pattern or not. -/
theorem not_found_only_without_leading_slash (lib : Lib) (r : Request) :
    (∀ host path : Str,
      (mainMux.handler host path).1 = Handler.NotFoundHandler ↔ path.head? ≠ some '/') ∧
    ((mainMux.Handler lib r).1 = Handler.NotFoundHandler →
      r.method = "CONNECT".toList ∧ r.url.path.head? ≠ some '/') ∧
    (r.method = "CONNECT".toList → r.url.path.head? ≠ some '/' →
      r.url.host.head? ≠ some '/' → r.requestURI ≠ ['*'] →
      (mainMux.Handler lib r).1 = Handler.NotFoundHandler ∧
      dispatch lib mainMux r = Response.notFound) := by
  refine ⟨handler_mainMux_notFound_iff, Handler_notFound_only_connect lib r, ?_⟩
  intro hm hp hh hs
  have hmh : r.muxHost lib = r.url.host := by
    simp only [Request.muxHost, hm, beq_self_eq_true, if_true]
  have hred : mainMux.shouldRedirectRLocked (r.muxHost lib) r.url.path = false := by
    cases hc : mainMux.shouldRedirectRLocked (r.muxHost lib) r.url.path with
    | false => rfl
    | true =>
      rw [hmh] at hc
      have := (shouldRedirect_mainMux_iff _ _ hh).mp hc
      rw [this] at hp
      exact absurd rfl hp
  have hsel : mainMux.Handler lib r = (Handler.NotFoundHandler, []) := by
    rw [Handler_mainMux_of_no_redirect lib r hred (Or.inl hm)]
    exact handler_mainMux_of_unrooted _ _ hp
  refine ⟨by rw [hsel], ?_⟩
  have hsb : (r.requestURI == ['*']) = false := beq_eq_false_iff_ne.mpr hs
  unfold dispatch ServeMux.ServeHTTP
  simp only [hsb, Bool.false_eq_true, if_false, hsel, Handler.ServeHTTP]
  rfl

/-- C2, amended, at `CONNECT example.com:443`: the path is empty, the reply is 404
with the body "404 page not found" and a newline. -/
theorem not_found_only_without_leading_slash_witness :
    dispatch Lib.quiet mainMux Request.connectAuthority = Response.notFound ∧
    (dispatch Lib.quiet mainMux Request.connectAuthority).status = 404 ∧
    (dispatch Lib.quiet mainMux Request.connectAuthority).body ≠ [] :=
  have h := ((not_found_only_without_leading_slash Lib.quiet Request.connectAuthority).2.2
    rfl (by decide) (by decide) (by decide)).2
  ⟨h, by rw [h]; rfl, by rw [h]; decide⟩

/-! ## The catch-all route (C10) -/

/-- C10 as stated fails: the path "/debug/pprof" begins with a slash, is none of the
four exact diagnostic patterns and does not begin with "/debug/pprof/", yet
`GET /debug/pprof` is not resolved to `hiHandler`: the mux answers it with a
redirect, status 301. -/
theorem subtree_root_is_redirected :
    "/debug/pprof".toList.head? = some '/' ∧
    "/debug/pprof".toList ≠ "/debug/pprof/cmdline".toList ∧
    "/debug/pprof".toList ≠ "/debug/pprof/profile".toList ∧
    "/debug/pprof".toList ≠ "/debug/pprof/symbol".toList ∧
    "/debug/pprof".toList ≠ "/debug/pprof/trace".toList ∧
    HasPrefix "/debug/pprof".toList "/debug/pprof/".toList = false ∧
    (mainMux.Handler Lib.quiet (Request.get "/debug/pprof".toList (by decide))).1
      = Handler.RedirectHandler ⟨[], "/debug/pprof/".toList, [], []⟩ 301 ∧
    (dispatch Lib.quiet mainMux (Request.get "/debug/pprof".toList (by decide))).status = 301 ∧
    (dispatch Lib.quiet mainMux (Request.get "/debug/pprof".toList (by decide))).body
      ≠ "hi".toList := by
  decide

/-- C10, amended: the table lookup is total on rooted paths: every path beginning
with a slash matches a registered route (at least the subtree pattern "/") and the
lookup yields one handler, that of a registered pattern which is a leading part of
the path.  Every request that reaches the lookup unredirected (its path begins with
a slash, is in canonical form or comes with CONNECT, and is not the subtree root
"/debug/pprof" without its slash; its host name does not begin with a slash) and
whose path neither equals one of the four exact diagnostic patterns nor begins with
"/debug/pprof/" is resolved to `hiHandler` and answered with status 200 and the
body "hi". -/
theorem rooted_paths_fall_to_hiHandler (lib : Lib) (r : Request) :
    (∀ host path : Str, path.head? = some '/' →
      ((mainMux.handler host path).2, (mainMux.handler host path).1) ∈ registrations ∧
      HasPrefix path (mainMux.handler host path).2 = true) ∧
    (r.url.path.head? = some '/' →
      (r.method = "CONNECT".toList ∨ cleanPath r.url.path = r.url.path) →
      r.url.path ≠ "/debug/pprof".toList →
      (r.muxHost lib).head? ≠ some '/' →
      r.url.path ≠ "/debug/pprof/cmdline".toList →
      r.url.path ≠ "/debug/pprof/profile".toList →
      r.url.path ≠ "/debug/pprof/symbol".toList →
      r.url.path ≠ "/debug/pprof/trace".toList →
      HasPrefix r.url.path "/debug/pprof/".toList = false →
      mainMux.Handler lib r = (Handler.hiHandler, "/".toList) ∧
      (dispatch lib mainMux r).status = 200 ∧
      (dispatch lib mainMux r).body = "hi".toList) := by
  constructor
  · intro host path hp
    have hp1 : HasPrefix path "/".toList = true := (HasPrefix_slash_iff path).mpr hp
    rw [handler_mainMux_cases]
    split_ifs with h1 h2 h3 h4 h5
    · subst h1; decide
    · subst h2; decide
    · subst h3; decide
    · subst h4; decide
    · exact ⟨by decide, h5⟩
    · exact ⟨by decide, hp1⟩
  · intro hp hc hroot hh h1 h2 h3 h4 h5
    have hred : mainMux.shouldRedirectRLocked (r.muxHost lib) r.url.path = false := by
      cases hs : mainMux.shouldRedirectRLocked (r.muxHost lib) r.url.path with
      | false => rfl
      | true => exact absurd ((shouldRedirect_mainMux_iff _ _ hh).mp hs) hroot
    have hp1 : HasPrefix r.url.path "/".toList = true := (HasPrefix_slash_iff _).mpr hp
    have h5b : ¬ HasPrefix r.url.path "/debug/pprof/".toList = true := by
      rw [h5]; decide
    have hsel : mainMux.Handler lib r = (Handler.hiHandler, "/".toList) := by
      rw [Handler_mainMux_of_no_redirect lib r hred hc, handler_mainMux_cases,
        if_neg h4, if_neg h3, if_neg h2, if_neg h1, if_neg h5b, if_pos hp1]
    have hstar := requestURI_ne_star_of_rooted r hp
    rw [dispatch_of_hiHandler lib mainMux r hstar (by rw [hsel])]
    exact ⟨hsel, rfl, rfl⟩

/-- C10, amended, at `GET /foo`. -/
theorem rooted_paths_fall_to_hiHandler_witness :
    mainMux.Handler Lib.quiet (Request.get "/foo".toList (by decide))
      = (Handler.hiHandler, "/".toList) ∧
    (dispatch Lib.quiet mainMux (Request.get "/foo".toList (by decide))).status = 200 ∧
    (dispatch Lib.quiet mainMux (Request.get "/foo".toList (by decide))).body = "hi".toList :=
  (rooted_paths_fall_to_hiHandler Lib.quiet (Request.get "/foo".toList (by decide))).2
    (by decide) (Or.inr (by decide)) (by decide) (by decide) (by decide) (by decide)
    (by decide) (by decide) (by decide)

/-! ## The route table (C4, C7) -/

/-- C4: the route table built in `main` holds exactly six routes: the five
diagnostic patterns, each bound to the pprof handler of the same capability
("/debug/pprof/" to Index, ".../cmdline" to Cmdline, ".../profile" to Profile,
".../symbol" to Symbol, ".../trace" to Trace), and "/" bound to `hiHandler`; every
other pattern is absent, and building the table does not panic. -/
theorem main_routes_exact :
    (setupAfter registrations.length).panic = none ∧
    mainMux.m.length = 6 ∧
    (mainMux.m.filter (fun kv => kv.2.h != Handler.hiHandler)).length = 5 ∧
    ∀ p : Str, (mainMux.m.lookup p).map muxEntry.h =
      if p = "/debug/pprof/".toList then some Handler.pprofIndex
      else if p = "/debug/pprof/cmdline".toList then some Handler.pprofCmdline
      else if p = "/debug/pprof/profile".toList then some Handler.pprofProfile
      else if p = "/debug/pprof/symbol".toList then some Handler.pprofSymbol
      else if p = "/debug/pprof/trace".toList then some Handler.pprofTrace
      else if p = "/".toList then some Handler.hiHandler
      else none := by
  refine ⟨by decide, by decide, by decide, ?_⟩
  intro p
  rw [lookup_mainMux]
  by_cases h1 : p = "/debug/pprof/trace".toList
  · subst h1; decide
  by_cases h2 : p = "/debug/pprof/symbol".toList
  · subst h2; decide
  by_cases h3 : p = "/debug/pprof/profile".toList
  · subst h3; decide
  by_cases h4 : p = "/debug/pprof/cmdline".toList
  · subst h4; decide
  by_cases h5 : p = "/debug/pprof/".toList
  · subst h5; decide
  by_cases h6 : p = "/".toList
  · subst h6; decide
  simp only [h1, h2, h3, h4, h5, h6, if_false, Option.map_none']

theorem setupAfter_of_ge (k : Nat) (h : registrations.length ≤ k) :
    setupAfter k = setupAfter registrations.length := by
  unfold setupAfter
  rw [List.take_of_length_le h, List.take_of_length_le (Nat.le_refl _)]

/-- C7: the six patterns registered by `main` are pairwise distinct, and after
every number `k` of registration steps `main` has not panicked, the table holds no
pattern twice, and it holds exactly the first `k` registrations, each with the
handler it was registered with (none was replaced). -/
theorem registrations_never_collide :
    (registrations.map Prod.fst).Nodup ∧
    ∀ k : Nat,
      (setupAfter k).panic = none ∧
      ((setupAfter k).r.m.map Prod.fst).Nodup ∧
      (setupAfter k).r.m.map (fun kv => (kv.1, kv.2.h)) = (registrations.take k).reverse := by
  refine ⟨by decide, ?_⟩
  have small : ∀ k : Fin 7,
      (setupAfter k.val).panic = none ∧
      ((setupAfter k.val).r.m.map Prod.fst).Nodup ∧
      (setupAfter k.val).r.m.map (fun kv => (kv.1, kv.2.h)) =
        (registrations.take k.val).reverse := by decide
  intro k
  by_cases hk : k < 7
  · exact small ⟨k, hk⟩
  · have hge : registrations.length ≤ k := by
      have : registrations.length = 6 := rfl
      omega
    rw [setupAfter_of_ge k hge, List.take_of_length_le hge]
    exact small ⟨6, by decide⟩

/-! ## The table is read-only while serving (C6) -/

/-- A run that makes no `HandleFunc` call leaves the mux as it was. -/
theorem run_mux_of_registersNothing {σ : Type} (W : ResponseWriter σ) (e : Effect) :
    ∀ s : Run σ, e.RegistersNothing → (e.run W s).mux = s.mux := by
  induction e with
  | ret => intro s _; rfl
  | headerSet k v next ih => intro s h; exact ih _ h
  | writeHeader code next ih => intro s h; exact ih _ h
  | write data next ih => intro s h; exact ih _ _ _ (h _ _)
  | handleFunc pattern hd next _ => intro s h; exact absurd h id

theorem headerSetAll_registersNothing (kvs : List (Str × Str)) (next : Effect)
    (h : next.RegistersNothing) : (Effect.headerSetAll kvs next).RegistersNothing := by
  induction kvs with
  | nil => exact h
  | cons kv kvs ih => exact ih

/-- No dispatch registers a route, provided the pprof handlers do not. -/
theorem ServeHTTP_registersNothing (lib : Lib) (hlib : lib.RegistersNothing) (mux : ServeMux)
    (r : Request) : (mux.ServeHTTP lib r).RegistersNothing := by
  unfold ServeMux.ServeHTTP
  split
  · split <;> exact True.intro
  · cases (mux.Handler lib r).1 with
    | hiHandler => intro n err; exact True.intro
    | pprofIndex => exact (hlib r).1
    | pprofCmdline => exact (hlib r).2.1
    | pprofProfile => exact (hlib r).2.2.1
    | pprofSymbol => exact (hlib r).2.2.2.1
    | pprofTrace => exact (hlib r).2.2.2.2
    | RedirectHandler u code =>
      apply headerSetAll_registersNothing
      show (match lib.redirectBody u code r with
        | some b => Effect.write b (fun _ _ => Effect.ret)
        | none => Effect.ret).RegistersNothing
      cases lib.redirectBody u code r with
      | none => exact True.intro
      | some b => intro n err; exact True.intro
    | NotFoundHandler => intro n err; exact True.intro

/-- The server loop dispatches every request on the mux it started with. -/
theorem Serve_same_mux (lib : Lib) (hlib : lib.RegistersNothing) (reqs : List Request) :
    ∀ mux : ServeMux,
      (Serve lib mux reqs).map Prod.fst = reqs.map (fun _ => mux) ∧
      (Serve lib mux reqs).map Prod.snd = reqs.map (dispatch lib mux) := by
  induction reqs with
  | nil => intro mux; exact ⟨rfl, rfl⟩
  | cons r rs ih =>
    intro mux
    have hm := run_mux_of_registersNothing Response.writer (mux.ServeHTTP lib r)
      { mux := mux, w := Response.new, calls := [], panicked := none }
      (ServeHTTP_registersNothing lib hlib mux r)
    refine ⟨?_, ?_⟩
    · show mux :: (Serve lib _ rs).map Prod.fst = mux :: rs.map (fun _ => mux)
      rw [hm, (ih mux).1]
    · show _ :: (Serve lib _ rs).map Prod.snd = dispatch lib mux r :: rs.map (dispatch lib mux)
      rw [hm, (ih mux).2]
      rfl

/-- C6: the route table is read-only once serving starts.  `main` starts the server
loop on the mux that holds all six registrations, `hiHandler` registers no route
whatever its write returns, and (the pprof handlers registering none either) every
dispatch of the server loop sees that same table: the replies `main` sends are those
of dispatching each request on the table present when the loop began. -/
theorem route_table_read_only (lib : Lib) (hlib : lib.RegistersNothing) (reqs : List Request)
    (err : Str) :
    (mainMux.m.map (fun kv => (kv.1, kv.2.h)) = registrations.reverse) ∧
    (∀ r : Request, (hiHandler r).RegistersNothing) ∧
    (∀ x ∈ Serve lib mainMux reqs, x.1 = mainMux) ∧
    (main lib (Listen.served reqs err)).replies = (Serve lib mainMux reqs).map Prod.snd ∧
    (main lib (Listen.served reqs err)).replies = reqs.map (dispatch lib mainMux) := by
  have hs := Serve_same_mux lib hlib reqs mainMux
  have hmain : (main lib (Listen.served reqs err)).replies
      = (Serve lib mainMux reqs).map Prod.snd := by
    simp only [main, setupAfter_panic_none, ListenAndServe, mainMux]
  refine ⟨by decide, ?_, ?_, hmain, by rw [hmain, hs.2]⟩
  · intro r n e
    exact True.intro
  · intro x hx
    have hmem : x.1 ∈ (Serve lib mainMux reqs).map Prod.fst := List.mem_map_of_mem _ hx
    rw [hs.1] at hmem
    simp only [List.mem_map] at hmem
    obtain ⟨_, _, h⟩ := hmem
    exact h.symm

theorem Lib.quiet_registersNothing : Lib.quiet.RegistersNothing := by
  intro r
  exact ⟨True.intro, True.intro, True.intro, True.intro, True.intro⟩

/-- C6 at three requests: `GET /`, `GET /debug/pprof/heap`, `GET /nope`. -/
theorem route_table_read_only_witness :
    Lib.quiet.RegistersNothing ∧
    (main Lib.quiet (Listen.served
      [Request.get "/".toList (by decide), Request.get "/debug/pprof/heap".toList (by decide),
       Request.get "/nope".toList (by decide)] "http: Server closed".toList)).replies =
      [Request.get "/".toList (by decide), Request.get "/debug/pprof/heap".toList (by decide),
       Request.get "/nope".toList (by decide)].map (dispatch Lib.quiet mainMux) :=
  ⟨Lib.quiet_registersNothing,
   (route_table_read_only Lib.quiet Lib.quiet_registersNothing _ _).2.2.2.2⟩

/-! ## `hiHandler` (C9) -/

/-- C9: whatever the request and whatever the response writer (its `Write` may
return any count and any error), `hiHandler` makes exactly one call, a `Write` of
the bytes "hi": no header is set, no status is written, no route is registered,
and the run ends normally after the write, its results unused.  The handler does
not depend on the request, so any two requests get the same run. -/
theorem hiHandler_one_write {σ : Type} (W : ResponseWriter σ) (s : Run σ) (r r2 : Request) :
    (hiHandler r).run W s =
      { s with w := (W.Write s.w "hi".toList).1, calls := s.calls ++ [Call.write "hi".toList] } ∧
    ((hiHandler r).run W s).panicked = s.panicked ∧
    ((hiHandler r).run W s).mux = s.mux ∧
    (hiHandler r).RegistersNothing ∧
    hiHandler r = hiHandler r2 ∧
    (hiHandler r).run W s = (hiHandler r2).run W s := by
  refine ⟨rfl, rfl, rfl, ?_, rfl, rfl⟩
  intro n err
  exact True.intro

/-! ## A failed bind (C5) -/

/-- C5 as stated fails: when binding the port fails, `main` ends with exit code 0
and writes nothing to standard error. -/
theorem main_bind_failure_exits_zero :
    (main Lib.quiet (Listen.bindError "listen tcp :8080: bind: address already in use".toList)).exitCode = 0 ∧
    (main Lib.quiet (Listen.bindError "listen tcp :8080: bind: address already in use".toList)).stderr = [] := by
  decide

/-- C5, amended: whenever `http.ListenAndServe` returns an error because binding
the port failed, `main` drops the error and returns: the process ends with exit
code 0, writes no diagnostic message, and has sent no reply. -/
theorem main_drops_listen_error (lib : Lib) (err : Str) :
    main lib (Listen.bindError err) = { exitCode := 0, stderr := [], replies := [] } := by
  simp only [main, setupAfter_panic_none, ListenAndServe]

end PprofServer
